import Mathlib

/-!
# Verification of the fast-resume session search core

A shallow embedding, in Lean 4, of the parts of the `fast-resume` code base
that the specification claims talk about: the normalized session record, the
adapters' incremental-diff protocol (`find_sessions_incremental` of the codex,
copilot, vibe, opencode and crush adapters), the per-adapter session parsers,
the Tantivy index wrapper (schema versioning, known-session retrieval and
fuzzy-query construction) and the aggregator's search and JSON session cache.

Python floats (mtimes, timestamps, scores) are modelled as rationals `ℚ`;
Python dicts are modelled as association lists with explicit insert-or-replace
semantics preserving insertion order, as Python dicts do.  External library
behaviour (tantivy's fuzzy term matcher, rapidfuzz's WRatio scorer, the `re`
regex engine) is abstracted as oracle function parameters; everything written
in the repository itself is translated directly.
-/

namespace FastResume

/-- The normalized session record, from `src/fast_resume/adapters/base.py`
(dataclass `Session`).  The `yolo` field is Modelled from the spec: the
`base.py` revision in the snapshot predates it, while the codex and vibe
adapters and the test suite already construct `Session(..., yolo=...)`;
spec §3 lists `yolo` (boolean, default off) as a field of the record. -/
structure Session where
  id : String
  agent : String
  title : String
  directory : String
  /-- `datetime` value, modelled as rational seconds since the epoch. -/
  timestamp : ℚ
  preview : String
  content : String
  message_count : Nat := 0
  mtime : ℚ := 0
  yolo : Bool := false
deriving Repr, DecidableEq

/-- One row of the `known` map handed to `find_sessions_incremental`:
`known: dict[str, tuple[float, str]]` mapping a session id to its stored
`(mtime, agent)` (built by `TantivyIndex.get_known_sessions`). -/
structure KnownEntry where
  id : String
  mtime : ℚ
  agent : String
deriving Repr, DecidableEq

/-- `known.get(session_id)`: first binding for `id` in the association list
(a Python dict has unique keys, so first = only). -/
def lookupKnown (known : List KnownEntry) (id : String) : Option KnownEntry :=
  known.find? (fun e => e.id == id)

/-- `[sid for sid, (_, agent) in known.items() if agent == self.name]` —
the deletion set returned when the adapter's root is missing. -/
def ownIds (name : String) (known : List KnownEntry) : List String :=
  (known.filter (fun e => e.agent == name)).map (fun e => e.id)

/-- `[sid for sid, (_, agent) in known.items()
      if agent == self.name and sid not in current_ids]`
(the deletion loop shared by every adapter). -/
def deletedIds (name : String) (known : List KnownEntry)
    (currentIds : List String) : List String :=
  (known.filter (fun e => e.agent == name && !(currentIds.contains e.id))).map
    (fun e => e.id)

/-- One enumerated source file as seen by the cheap scan phase of
`find_sessions_incremental`: its recovered stable `id`, its `mtime` (file
stat mtime for codex/copilot, the content-embedded start/created time for
vibe/opencode), and the result of fully parsing it with `_parse_session`
(`none` when the parse fails or the session is suppressed). -/
structure ScanFile where
  id : String
  mtime : ℚ
  parse : Option Session
deriving Repr, DecidableEq

/-- `current_files[session_id] = (session_file, mtime)`: dict insertion.
A repeated id overwrites the stored value but keeps the original position,
exactly as a Python dict does. -/
def insertCurrent (acc : List ScanFile) (f : ScanFile) : List ScanFile :=
  if acc.any (fun g => g.id == f.id) then
    acc.map (fun g => if g.id == f.id then f else g)
  else
    acc ++ [f]

/-- The scan loop that fills the `current_files` dict. -/
def buildCurrent (files : List ScanFile) : List ScanFile :=
  files.foldl insertCurrent []

/-- `known_entry is None or mtime > known_entry[0] + 0.001` — the shared
new-or-modified test with the 1 ms tolerance. -/
def shouldUpsert (known : List KnownEntry) (f : ScanFile) : Bool :=
  match lookupKnown known f.id with
  | none => true
  | some e => decide (f.mtime > e.mtime + 1/1000)

/-- The upsert loop of `CodexAdapter.find_sessions_incremental` (lines
193–200 of `codex.py`), shared verbatim by the copilot and vibe adapters:
parse each new-or-modified file and stamp the scan mtime onto the parsed
session (`session.mtime = mtime`). -/
def newOrModified (known : List KnownEntry) (current : List ScanFile) :
    List Session :=
  current.filterMap (fun f =>
    if shouldUpsert known f then
      f.parse.map (fun s => { s with mtime := f.mtime })
    else none)

/-- `find_sessions_incremental` as written identically in `codex.py`
(lines 173–210), `copilot.py` (137–174) and `vibe.py` (117–172):
missing root ⇒ `([], own ids)`; otherwise scan, upsert, delete. -/
def findSessionsIncrementalShared (name : String) (available : Bool)
    (files : List ScanFile) (known : List KnownEntry) :
    List Session × List String :=
  if !available then
    ([], ownIds name known)
  else
    let current := buildCurrent files
    (newOrModified known current,
     deletedIds name known (current.map (fun f => f.id)))

/-- The upsert selection of `OpenCodeAdapter.find_sessions_incremental`
(lines 187–204 and 238–245 of `opencode.py`): the same new-or-modified
test, but the parse results are returned without the `session.mtime`
write-back. -/
def opencodeNewOrModified (known : List KnownEntry)
    (current : List ScanFile) : List Session :=
  ((current.filter (shouldUpsert known)).filterMap (fun f => f.parse))

/-- `OpenCodeAdapter.find_sessions_incremental` (lines 145–245 of
`opencode.py`): two early exits (storage root missing, `session`
subdirectory missing) both return `([], own ids)`. -/
def opencodeFindSessionsIncremental (available sessionDirExists : Bool)
    (files : List ScanFile) (known : List KnownEntry) :
    List Session × List String :=
  if !available then
    ([], ownIds "opencode" known)
  else if !sessionDirExists then
    ([], ownIds "opencode" known)
  else
    let current := buildCurrent files
    (opencodeNewOrModified known current,
     deletedIds "opencode" known (current.map (fun f => f.id)))

/-! ## Shared constants and string helpers -/

/-- `MAX_PREVIEW_LENGTH` from `config.py`. -/
def maxPreviewLength : Nat := 500

/-- `SCHEMA_VERSION` from `config.py`. -/
def schemaVersion : Int := 13

/-- Python `s.rsplit(" ", 1)[0]`: everything before the last space,
or `s` itself when it holds no space. -/
def dropLastWord (s : String) : String :=
  let ps := s.splitOn " "
  if ps.length ≤ 1 then s else String.intercalate " " ps.dropLast

/-- Python `stem.split("-", 1)[-1] if "-" in stem else stem`
(codex filename-stem fallback id). -/
def afterFirstDash (stem : String) : String :=
  let ps := stem.splitOn "-"
  if ps.length ≤ 1 then stem else String.intercalate "-" ps.tail

/-- Python slicing `s[:n]`: the first `n` code points.  (Equivalent to
`String.take`, implemented over the code-point list so that it reduces
in the kernel.) -/
def strTake (s : String) (n : Nat) : String :=
  String.mk (s.data.take n)

/-- Python `s.lower()`, modelled code point by code point. -/
def strLower (s : String) : String :=
  String.mk (s.data.map Char.toLower)

/-- Python `s.strip()`: drop leading and trailing whitespace. -/
def strTrim (s : String) : String :=
  String.mk
    (((s.data.dropWhile Char.isWhitespace).reverse.dropWhile
        Char.isWhitespace).reverse)

/-- Does `hay` start with `needle`?  (Python `str.startswith`.) -/
def charsStartWith : List Char → List Char → Bool
  | _, [] => true
  | [], _ :: _ => false
  | h :: hs, n :: ns => h == n && charsStartWith hs ns

/-- Does `needle` occur contiguously in `hay`? -/
def charsContain (needle : List Char) : List Char → Bool
  | [] => needle.isEmpty
  | c :: rest => charsStartWith (c :: rest) needle || charsContain needle rest

/-- Python `needle in hay` on strings. -/
def containsSubstr (hay needle : String) : Bool :=
  charsContain needle.data hay.data

/-! ## Vibe adapter (`adapters/vibe.py`)

`VibeAdapter._parse_session` reads a single JSON descriptor with a
`metadata` object and a `messages` array and always produces a record:
this revision has no suppression of empty or human-turn-free sessions. -/

/-- A single element of a vibe message's `content` list: `some t` is a
dict whose `"text"` key holds `t` (`""` when absent), `none` a non-dict
element, which the loop skips. -/
abbrev VibePart := Option String

/-- A vibe message body: a plain string, a list of parts, or any other
JSON shape (skipped by both branches of the loop). -/
inductive VibeContent where
  | str (s : String)
  | parts (ps : List VibePart)
  | other
deriving Repr, DecidableEq

/-- One element of the vibe descriptor's `messages` array. -/
structure VibeMsg where
  role : String
  content : VibeContent
deriving Repr, DecidableEq

/-- The lines the message loop of `VibeAdapter._parse_session` (lines
65–82) appends for one message: system messages are skipped, user lines
get the `» ` marker, everything else two spaces. -/
def vibeMsgLines (m : VibeMsg) : List String :=
  if m.role == "system" then []
  else
    let mark := if m.role == "user" then "» " else "  "
    match m.content with
    | .str s => if s ≠ "" then [mark ++ s] else []
    | .parts ps =>
        ps.filterMap (fun p =>
          match p with
          | some t => if t ≠ "" then some (mark ++ t) else none
          | none => none)
    | .other => []

/-- All lines emitted for a vibe `messages` array, in order. -/
def vibeLines (msgs : List VibeMsg) : List String :=
  (msgs.map vibeMsgLines).flatten

/-- The title computation of `VibeAdapter._parse_session` (lines 84–98):
first user message when it is a plain string, else `"Vibe session"`;
an exactly-80-character title gets an ellipsis appended. -/
def vibeTitle (msgs : List VibeMsg) : String :=
  let userMessages := msgs.filter (fun m => m.role == "user")
  let t :=
    match userMessages with
    | [] => "Vibe session"
    | m :: _ =>
        match m.content with
        | .str s => strTake s 80
        | _ => "Vibe session"
  if t.length == 80 then t ++ "..." else t

/-- The fields `_parse_session` reads from the descriptor's `metadata`
object.  `sessionId = none` models a missing `session_id` key (fallback:
filename stem); `startTime = none` models a missing or unparseable
`start_time` (fallback: file mtime). -/
structure VibeMeta where
  sessionId : Option String
  workingDirectory : String
  autoApprove : Bool
  startTime : Option ℚ
deriving Repr, DecidableEq

/-- `VibeAdapter._parse_session` (lines 35–115) on a successfully decoded
descriptor.  It is total: nothing suppresses a session with no human turn
or no content in this adapter. -/
def vibeParseSession (stem : String) (fileMtime : ℚ) (meta : VibeMeta)
    (msgs : List VibeMsg) : Session :=
  let lines := vibeLines msgs
  let fullContent := String.intercalate "\n\n" lines
  { id := meta.sessionId.getD stem
    agent := "vibe"
    title := vibeTitle msgs
    directory := meta.workingDirectory
    timestamp := meta.startTime.getD fileMtime
    preview := strTake fullContent maxPreviewLength
    content := fullContent
    message_count := lines.length
    yolo := meta.autoApprove }

/-! ## Codex adapter (`adapters/codex.py`) -/

/-- An element of a `response_item` record's `content` list: a dict with
`text`/`input_text` keys (either may be `""` for absent), or a non-dict
element, which is skipped. -/
inductive CodexPart where
  | dict (text inputText : String)
  | nonDict
deriving Repr, DecidableEq

/-- `part.get("text", "") or part.get("input_text", "")`. -/
def codexPartText : CodexPart → String
  | .dict t it => if t ≠ "" then t else it
  | .nonDict => ""

/-- The `event_msg` payloads `_parse_session` distinguishes. -/
inductive CodexEvent where
  | userMessage (message : String)
  | agentReasoning (text : String)
  | otherEvent
deriving Repr, DecidableEq

/-- One decoded line of a codex rollout file.  Fields default to `""`
when the corresponding key is absent, as `payload.get(..., "")` does. -/
inductive CodexEntry where
  | sessionMeta (id cwd : String)
  | turnContext (approvalPolicy sandboxMode : String)
  | responseItem (role : String) (content : List CodexPart)
  | eventMsg (ev : CodexEvent)
  | otherEntry
deriving Repr, DecidableEq

/-- The mutable state of the line loop in `CodexAdapter._parse_session`. -/
structure CodexAcc where
  sessionId : String
  directory : String
  yolo : Bool
  messages : List String
  userPrompts : List String
deriving Repr, DecidableEq

/-- One iteration of the line loop of `CodexAdapter._parse_session`
(lines 50–110). -/
def codexStep (acc : CodexAcc) : CodexEntry → CodexAcc
  | .sessionMeta id cwd => { acc with sessionId := id, directory := cwd }
  | .turnContext ap sm =>
      if ap == "never" || sm == "danger-full-access" then
        { acc with yolo := true }
      else acc
  | .responseItem role content =>
      if role == "user" || role == "assistant" then
        let mark := if role == "user" then "» " else "  "
        let newLines := content.filterMap (fun p =>
          let text := codexPartText p
          if text ≠ "" then
            if !(charsStartWith (strTrim text).data "<environment_context>".data) then
              some (mark ++ text)
            else none
          else none)
        { acc with messages := acc.messages ++ newLines }
      else acc
  | .eventMsg (.userMessage msg) =>
      if msg ≠ "" then
        { acc with
            messages := acc.messages ++ ["» " ++ msg]
            userPrompts := acc.userPrompts ++ [msg] }
      else acc
  | .eventMsg (.agentReasoning text) =>
      if text ≠ "" then { acc with messages := acc.messages ++ ["  " ++ text] }
      else acc
  | .eventMsg .otherEvent => acc
  | .otherEntry => acc

/-- `CodexAdapter._parse_session` (lines 39–144): sessions with no
`event_msg` user prompt are dropped (`if not user_prompts: return None`);
`message_count` is the number of user prompts. -/
def codexParseSession (stem : String) (fileMtime : ℚ)
    (entries : List CodexEntry) : Option Session :=
  let acc := entries.foldl codexStep ⟨"", "", false, [], []⟩
  let sessionId := if acc.sessionId == "" then afterFirstDash stem else acc.sessionId
  match acc.userPrompts with
  | [] => none
  | p :: _ =>
      let title := strTake p 80 ++ (if p.length > 80 then "..." else "")
      let fullContent := String.intercalate "\n\n" acc.messages
      some { id := sessionId
             agent := "codex"
             title := title
             directory := acc.directory
             timestamp := fileMtime
             preview := strTake fullContent maxPreviewLength
             content := fullContent
             message_count := acc.userPrompts.length
             yolo := acc.yolo }

/-! ## Copilot adapter (`adapters/copilot.py`) -/

/-- One decoded line of a copilot session-state file.  For
`session.start`, `none` models a missing `sessionId` key
(`data.get("sessionId", session_id)` keeps the current id). -/
inductive CopilotEntry where
  | sessionStart (sessionId : Option String)
  | sessionInfo (infoType message : String)
  | userMessage (content : String)
  | assistantMessage (content : String)
  | otherEntry
deriving Repr, DecidableEq

/-- `re.search(r"Folder (/[^\s]+)", message)`: scan left to right for the
literal `"Folder "` followed by `/` and at least one non-whitespace
character; the capture is the `/` plus the maximal non-whitespace run. -/
def extractFolderAux : List Char → Option String
  | [] => none
  | c :: rest =>
      let here : Option String :=
        if (c :: rest).take 7 = "Folder ".toList then
          match (c :: rest).drop 7 with
          | '/' :: more =>
              let run := more.takeWhile (fun d => !d.isWhitespace)
              if run = [] then none
              else some (String.mk ('/' :: run))
          | _ => none
        else none
      match here with
      | some r => some r
      | none => extractFolderAux rest

/-- Directory extraction from a `folder_trust` info message. -/
def extractFolder (message : String) : Option String :=
  extractFolderAux message.toList

/-- The mutable state of the line loop in `CopilotAdapter._parse_session`. -/
structure CopilotAcc where
  sessionId : String
  firstUserMessage : String
  directory : String
  messages : List String
  humanTurnCount : Nat
deriving Repr, DecidableEq

/-- One iteration of the line loop of `CopilotAdapter._parse_session`
(lines 50–87).  Note the human-turn marker this adapter writes is the
three-character mojibake `"Â» "` (U+00C2 U+00BB space). -/
def copilotStep (acc : CopilotAcc) : CopilotEntry → CopilotAcc
  | .sessionStart sid => { acc with sessionId := sid.getD acc.sessionId }
  | .sessionInfo infoType message =>
      if acc.directory == "" && infoType == "folder_trust" then
        match extractFolder message with
        | some d => { acc with directory := d }
        | none => acc
      else acc
  | .userMessage content =>
      if content ≠ "" then
        let acc1 := { acc with
            messages := acc.messages ++ ["Â» " ++ content]
            humanTurnCount := acc.humanTurnCount + 1 }
        if acc1.firstUserMessage == "" && content.length > 10 then
          { acc1 with firstUserMessage := content }
        else acc1
      else acc
  | .assistantMessage content =>
      if content ≠ "" then
        { acc with messages := acc.messages ++ ["  " ++ content] }
      else acc
  | .otherEntry => acc

/-- `CopilotAdapter._parse_session` (lines 39–116): the session id starts
as the filename stem; sessions whose first qualifying user message was
never found (none longer than 10 characters) are dropped. -/
def copilotParseSession (stem : String) (fileMtime : ℚ)
    (entries : List CopilotEntry) : Option Session :=
  let acc := entries.foldl copilotStep ⟨stem, "", "", [], 0⟩
  if acc.firstUserMessage == "" then none
  else
    let title0 := strTake (strTrim acc.firstUserMessage) 100
    let title :=
      if acc.firstUserMessage.length > 100 then dropLastWord title0 ++ "..."
      else title0
    if acc.messages = [] then none
    else
      let fullContent := String.intercalate "\n\n" acc.messages
      some { id := acc.sessionId
             agent := "copilot-cli"
             title := title
             directory := acc.directory
             timestamp := fileMtime
             preview := strTake fullContent maxPreviewLength
             content := fullContent
             message_count := acc.humanTurnCount }

/-! ## Claude adapter (`adapters/claude.py`) -/

/-- One element of a claude message's `content` list: a dict whose
`type` is `"text"` (its `text` key defaulting to `""`), a dict of any
other type (e.g. a `tool_result`), a plain string, or anything else
(skipped). -/
inductive ClaudePart where
  | textPart (text : String)
  | otherTypeDict
  | strPart (s : String)
  | otherPart
deriving Repr, DecidableEq

/-- A claude message body: a plain string (`msg.get("content", "")`
defaults to `""`), a list of parts, or any other JSON shape. -/
inductive ClaudeContent where
  | str (s : String)
  | parts (ps : List ClaudePart)
  | other
deriving Repr, DecidableEq

/-- One decoded line of a claude project session file. -/
inductive ClaudeEntry where
  | summary (summary : String)
  | user (isMeta : Bool) (cwd : String) (content : ClaudeContent)
  | assistant (content : ClaudeContent)
  | otherEntry
deriving Repr, DecidableEq

/-- The mutable state of the line loop in
`ClaudeAdapter._parse_session`. -/
structure ClaudeAcc where
  title : String
  firstUserMessage : String
  directory : String
  messages : List String
  humanTurnCount : Nat
deriving Repr, DecidableEq

/-- The part loop of the user-list branch (claude.py lines 97–107):
text-dict parts are appended unconditionally (even empty text) and set
`first_user_message` when it is still empty; plain-string parts are
appended; everything else is skipped. -/
def claudeUserPartStep (a : ClaudeAcc) (p : ClaudePart) : ClaudeAcc :=
  match p with
  | .textPart text =>
      { a with
          messages := a.messages ++ ["» " ++ text]
          firstUserMessage :=
            if a.firstUserMessage == "" then text else a.firstUserMessage }
  | .strPart s => { a with messages := a.messages ++ ["» " ++ s] }
  | _ => a

/-- `is_human_input` of claude.py lines 78–95: a string body always
counts; a list body counts exactly when its first element is a
text-typed dict. -/
def claudeIsHumanContent : ClaudeContent → Bool
  | .str _ => true
  | .parts (ClaudePart.textPart _ :: _) => true
  | .parts _ => false
  | .other => false

/-- The content processing of a `user` record (claude.py lines 73–108):
a string body is emitted unless the record is meta or starts with an
internal command marker, and qualifies as the first user message when
longer than 10 characters; a list body runs the part loop. -/
def claudeUserContentStep (a : ClaudeAcc) (isMeta : Bool) :
    ClaudeContent → ClaudeAcc
  | .str s =>
      if !isMeta && !(charsStartWith s.data "<command".data)
          && !(charsStartWith s.data "<local-command".data) then
        { a with
            messages := a.messages ++ ["» " ++ s]
            firstUserMessage :=
              if a.firstUserMessage == "" && s.length > 10 then s
              else a.firstUserMessage }
      else a
  | .parts ps => ps.foldl claudeUserPartStep a
  | .other => a

/-- The lines an `assistant` record emits (claude.py lines 112–128):
non-empty string bodies, non-empty text-dict parts, and plain-string
parts, each prefixed with two spaces. -/
def claudeAsstLines : ClaudeContent → List String
  | .str s => if s ≠ "" then ["  " ++ s] else []
  | .parts ps =>
      ps.filterMap (fun p =>
        match p with
        | ClaudePart.textPart text =>
            if text ≠ "" then some ("  " ++ text) else none
        | ClaudePart.strPart s => some ("  " ++ s)
        | _ => none)
  | .other => []

/-- One iteration of the line loop of `ClaudeAdapter._parse_session`
(lines 54–128): the latest `summary` wins the title; the first user
record's `cwd` sets the directory; `human_turn_count` increments for
every human-input user record, whether or not its lines were emitted. -/
def claudeStep (acc : ClaudeAcc) : ClaudeEntry → ClaudeAcc
  | .summary s => { acc with title := s }
  | .user isMeta cwd content =>
      let acc1 :=
        if acc.directory == "" then { acc with directory := cwd } else acc
      let acc2 := claudeUserContentStep acc1 isMeta content
      if claudeIsHumanContent content then
        { acc2 with humanTurnCount := acc2.humanTurnCount + 1 }
      else acc2
  | .assistant content =>
      { acc with messages := acc.messages ++ claudeAsstLines content }
  | .otherEntry => acc

/-- `ClaudeAdapter._parse_session` (lines 43–159): sessions with no
qualifying first user message or no emitted line are dropped;
`message_count` is the human-turn count.  `maxContentLength` is
Modelled from the spec: claude.py imports `MAX_CONTENT_LENGTH`, which
is absent from this revision of config.py; spec §4.2 specifies only an
implementation-defined cap (≥ 32 KiB recommended), so the cap is a
parameter here. -/
def claudeParseSession (stem : String) (fileMtime : ℚ)
    (maxContentLength : Nat) (entries : List ClaudeEntry) :
    Option Session :=
  let acc := entries.foldl claudeStep ⟨"", "", "", [], 0⟩
  if acc.firstUserMessage == "" then none
  else
    let title :=
      if acc.title == "" then
        let t := strTake (strTrim acc.firstUserMessage) 100
        if acc.firstUserMessage.length > 100 then dropLastWord t ++ "..."
        else t
      else acc.title
    if acc.messages = [] then none
    else
      let fullContent :=
        strTake (String.intercalate "\n\n" acc.messages) maxContentLength
      some { id := stem
             agent := "claude"
             title := title
             directory := acc.directory
             timestamp := fileMtime
             preview := strTake fullContent maxPreviewLength
             content := fullContent
             message_count := acc.humanTurnCount }

/-! ## Crush adapter (`adapters/crush.py`)

The relational store: one `projects.json` file maps projects to data
directories, each holding a `crush.db` SQLite database.  The SQL query,
its result rows and a possible `sqlite3.Error` (including a lock held
past the 5-second timeout) are modelled as a `CrushDB` value. -/

/-- One element of a crush message's decoded `parts` JSON.  For
`toolResult`, `name = none` models a missing `name` key
(`data.get("name", "tool")`). -/
inductive CrushPart where
  | textPart (text : String)
  | toolResult (name : Option String) (content : String)
  | toolCall (name : String)
  | otherPart
deriving Repr, DecidableEq

/-- The text contribution of one part in
`CrushAdapter._extract_text_from_parts` (lines 177–198). -/
def crushPartText : CrushPart → Option String
  | .textPart t => if t ≠ "" then some t else none
  | .toolResult name content =>
      if content ≠ "" && content.length < 500 then
        some ("[" ++ name.getD "tool" ++ "]: " ++ strTake content 200)
      else none
  | .toolCall name =>
      if name ≠ "" then some ("[calling " ++ name ++ "]") else none
  | .otherPart => none

/-- `CrushAdapter._extract_text_from_parts` (lines 170–200); `none`
models a `parts` column whose JSON fails to decode (returns `""`). -/
def extractTextFromParts : Option (List CrushPart) → String
  | none => ""
  | some parts => String.intercalate " " (parts.filterMap crushPartText)

/-- One message row joined to a session: its `role` and `parts` column. -/
structure CrushRawMessage where
  role : String
  parts : Option (List CrushPart)
deriving Repr, DecidableEq

/-- The per-session metadata stored at the row-grouping stage
(`row["title"] or ""`, `updated_at`, `created_at`). -/
structure CrushSessionData where
  title : String
  updatedAt : ℚ
  createdAt : ℚ
deriving Repr, DecidableEq

/-- Millisecond auto-detection of `_build_session` (lines 122–126):
`values greater than 1e11 are milliseconds and are divided by 1000`. -/
def adjustMillis (t : ℚ) : ℚ :=
  if t > 100000000000 then t / 1000 else t

/-- The mutable state of the message loop in
`CrushAdapter._build_session`. -/
structure CrushAcc where
  messages : List String
  firstUserMessage : String
deriving Repr, DecidableEq

/-- One iteration of the message loop of `_build_session` (lines
133–142).  The human-turn marker this adapter writes is the mojibake
`"Â» "`. -/
def crushMsgStep (acc : CrushAcc) (m : CrushRawMessage) : CrushAcc :=
  let textContent := extractTextFromParts m.parts
  if textContent == "" then acc
  else
    let mark := if m.role == "user" then "Â» " else "  "
    let acc1 := { acc with messages := acc.messages ++ [mark ++ textContent] }
    if m.role == "user" && acc1.firstUserMessage == "" && textContent.length > 5
    then { acc1 with firstUserMessage := textContent }
    else acc1

/-- `CrushAdapter._build_session` (lines 109–168): sessions with no
emitted line or no qualifying first user message (text longer than 5
characters) are dropped; `message_count` is the number of emitted lines. -/
def crushBuildSession (sessionId : String) (data : CrushSessionData)
    (messagesRaw : List CrushRawMessage) (projectPath : String) :
    Option Session :=
  let updatedAt := adjustMillis data.updatedAt
  let acc := messagesRaw.foldl crushMsgStep ⟨[], ""⟩
  if acc.messages = [] || acc.firstUserMessage == "" then none
  else
    let title :=
      if data.title == "" then
        let t := strTake (strTrim acc.firstUserMessage) 100
        if acc.firstUserMessage.length > 100 then dropLastWord t ++ "..." else t
      else data.title
    let fullContent := String.intercalate "\n\n" acc.messages
    some { id := sessionId
           agent := "crush"
           title := title
           directory := projectPath
           timestamp := updatedAt
           preview := strTake fullContent maxPreviewLength
           content := fullContent
           message_count := acc.messages.length }

/-- One row of the `sessions LEFT JOIN messages` query; `msg = none`
models a NULL `role` (session without message rows). `title = none`
models a NULL title (mapped to `""` by `row["title"] or ""`). -/
structure CrushRow where
  sessionId : String
  title : Option String
  updatedAt : ℚ
  createdAt : ℚ
  msg : Option CrushRawMessage
deriving Repr, DecidableEq

/-- Session ids in order of first appearance among the rows: the
insertion order of the `session_data` dict built at lines 76–85. -/
def firstOccurrences (rows : List CrushRow) : List String :=
  rows.foldl
    (fun acc r => if acc.contains r.sessionId then acc else acc ++ [r.sessionId])
    []

/-- The metadata stored for a session id: taken from its first row. -/
def sessionMeta (rows : List CrushRow) (sid : String) : CrushSessionData :=
  match rows.find? (fun r => r.sessionId == sid) with
  | some r => { title := r.title.getD "", updatedAt := r.updatedAt,
                createdAt := r.createdAt }
  | none => { title := "", updatedAt := 0, createdAt := 0 }

/-- The messages collected for a session id (rows with non-NULL role),
in row order. -/
def sessionMessages (rows : List CrushRow) (sid : String) :
    List CrushRawMessage :=
  rows.filterMap (fun r => if r.sessionId == sid then r.msg else none)

/-- One project database: `queryOk = false` models a `sqlite3.Error`
(query failure or lock timeout), in which case the `except` clause at
lines 104–105 swallows the error and the function returns no sessions. -/
structure CrushDB where
  queryOk : Bool
  rows : List CrushRow
deriving Repr, DecidableEq

/-- `CrushAdapter._load_sessions_from_db` (lines 53–107). -/
def loadSessionsFromDB (db : CrushDB) (projectPath : String) :
    List Session :=
  if !db.queryOk then []
  else
    (firstOccurrences db.rows).filterMap (fun sid =>
      crushBuildSession sid (sessionMeta db.rows sid)
        (sessionMessages db.rows sid) projectPath)

/-- One entry of `projects.json`: `dataDir = ""` models a missing or
empty `data_dir` (skipped), `db = none` a `crush.db` file that does not
exist (skipped). -/
structure CrushProject where
  path : String
  dataDir : String
  db : Option CrushDB
deriving Repr, DecidableEq

/-- The per-session step of the incremental loop at lines 240–247:
record the id as current, and keep the session as an upsert when it is
unknown or its timestamp beats the stored mtime by more than 1 ms. -/
def crushUpsertStep (known : List KnownEntry)
    (acc : List Session × List String) (s : Session) :
    List Session × List String :=
  let ids := acc.2 ++ [s.id]
  let keep :=
    match lookupKnown known s.id with
    | none => true
    | some e => decide (s.timestamp > e.mtime + 1/1000)
  (if keep then acc.1 ++ [s] else acc.1, ids)

/-- The per-project step of `CrushAdapter.find_sessions_incremental`
(lines 226–247). -/
def crushProjectStep (known : List KnownEntry)
    (acc : List Session × List String) (p : CrushProject) :
    List Session × List String :=
  if p.dataDir == "" then acc
  else
    match p.db with
    | none => acc
    | some db => (loadSessionsFromDB db p.path).foldl (crushUpsertStep known) acc

/-- `CrushAdapter.find_sessions_incremental` (lines 202–256):
`available` is `CRUSH_PROJECTS_FILE.exists()`, `projectsFileOk` whether
the projects file decodes (lines 212–219). -/
def crushFindSessionsIncremental (available projectsFileOk : Bool)
    (projects : List CrushProject) (known : List KnownEntry) :
    List Session × List String :=
  if !available then ([], ownIds "crush" known)
  else if !projectsFileOk then ([], ownIds "crush" known)
  else
    let r := projects.foldl (crushProjectStep known) ([], [])
    (r.1, deletedIds "crush" known r.2)

/-! ## OpenCode adapter (`adapters/opencode.py`) -/

/-- One pre-indexed message of a session: the message file's name (the
sort key at line 135), the message id and role from its JSON. -/
structure OcMsg where
  fileName : String
  msgId : String
  role : String
deriving Repr, DecidableEq

/-- Stable insertion of `x` into a list sorted ascending by `le`:
`x` goes after every element `y` with `le y x`. -/
def insertAfterEq {α : Type} (le : α → α → Bool) (x : α) :
    List α → List α
  | [] => [x]
  | y :: ys => if le y x then y :: insertAfterEq le x ys else x :: y :: ys

/-- A stable ascending sort (Python's `sorted` is stable). -/
def stableSortBy {α : Type} (le : α → α → Bool) (l : List α) : List α :=
  l.foldl (fun acc x => insertAfterEq le x acc) []

/-- `parts_by_message.get(msg_id, [])`. -/
def lookupParts (partsByMessage : List (String × List String))
    (msgId : String) : List String :=
  match partsByMessage.find? (fun p => p.1 == msgId) with
  | some p => p.2
  | none => []

/-- `OpenCodeAdapter._get_session_messages` (lines 124–143): sort the
session's messages by file name, then emit one line per pre-indexed text
part.  The human-turn marker this adapter writes is the mojibake
`"Â» "`. -/
def ocGetSessionMessages (sessionMsgs : List OcMsg)
    (partsByMessage : List (String × List String)) : List String :=
  let sorted := stableSortBy
    (fun a b => decide (a.fileName ≤ b.fileName)) sessionMsgs
  (sorted.map (fun m =>
    let mark := if m.role == "user" then "Â» " else "  "
    (lookupParts partsByMessage m.msgId).map (fun t => mark ++ t))).flatten

/-- `OpenCodeAdapter._parse_session` (lines 80–122) on a successfully
decoded session descriptor.  `title = none` models a missing `title` key
(default `"Untitled session"`); `created = 0` a missing or zero
`time.created` (fallback to file mtime, otherwise milliseconds ÷ 1000).
It is total: nothing suppresses a session with no human turn or no
content, and `message_count` counts every emitted line.  `sessionMsgs`
is `messages_by_session.get(session_id, [])`. -/
def ocParseSession (sessionId : String) (title : Option String)
    (directory : String) (created : ℚ) (fileMtime : ℚ)
    (sessionMsgs : List OcMsg)
    (partsByMessage : List (String × List String)) : Session :=
  let messages := ocGetSessionMessages sessionMsgs partsByMessage
  let fullContent := String.intercalate "\n\n" messages
  { id := sessionId
    agent := "opencode"
    title := title.getD "Untitled session"
    directory := directory
    timestamp := if created ≠ 0 then created / 1000 else fileMtime
    preview := strTake fullContent maxPreviewLength
    content := fullContent
    message_count := messages.length }

/-! ## Index (`index.py`): schema versioning and known sessions -/

/-- One stored index document, restricted to the fields
`get_known_sessions` reads back. -/
structure IndexDoc where
  id : String
  timestamp : ℚ
  agent : String
deriving Repr, DecidableEq

/-- The on-disk state of the index directory when it exists: the
`.schema_version` stamp (`none` when the file is missing or its content
unreadable as an integer) and the committed documents. -/
structure IndexDir where
  stamp : Option Int
  docs : List IndexDoc
deriving Repr, DecidableEq

/-- `TantivyIndex._check_version` (lines 47–55) on an existing index
directory. -/
def checkVersion (d : IndexDir) : Bool :=
  d.stamp == some schemaVersion

/-- A freshly created index: empty, stamped with the compiled-in
version (`_write_version`). -/
def freshIndexDir : IndexDir :=
  { stamp := some schemaVersion, docs := [] }

/-- `TantivyIndex._ensure_index` (lines 69–89) acting on the index
directory (`none` = the path does not exist): an existing directory with
a mismatched or unreadable stamp is deleted (`_clear`, `shutil.rmtree`)
and recreated fresh. -/
def ensureIndex (dir : Option IndexDir) : IndexDir :=
  match dir with
  | some d => if checkVersion d then d else freshIndexDir
  | none => freshIndexDir

/-- Dict insertion for the `known` map built by `get_known_sessions`. -/
def insertKnown (acc : List KnownEntry) (e : KnownEntry) : List KnownEntry :=
  if acc.any (fun g => g.id == e.id) then
    acc.map (fun g => if g.id == e.id then e else g)
  else
    acc ++ [e]

/-- The result-accumulation loop of `get_known_sessions` (lines
113–119): documents with an empty id or agent are skipped. -/
def knownOfDocs (docs : List IndexDoc) : List KnownEntry :=
  docs.foldl
    (fun acc doc =>
      if doc.id ≠ "" && doc.agent ≠ "" then
        insertKnown acc { id := doc.id, mtime := doc.timestamp, agent := doc.agent }
      else acc)
    []

/-- `TantivyIndex.get_known_sessions` (lines 91–121): an absent index
path or a version mismatch short-circuits to the empty map before any
document is read. -/
def getKnownSessions (dir : Option IndexDir) : List KnownEntry :=
  match dir with
  | none => []
  | some d => if !checkVersion d then [] else knownOfDocs (ensureIndex (some d)).docs

/-! ## Fuzzy query construction (`index.py`, `search` and
`_build_fuzzy_query`)

The query AST mirrors the tantivy query objects the code builds: the
construction nests booleans exactly two levels deep, so the embedding
uses a two-level type rather than a general recursive one. -/

/-- `tantivy.Occur`. -/
inductive Occur where
  | must
  | should
deriving Repr, DecidableEq

/-- A leaf tantivy query: `fuzzy_term_query(schema, field, term,
distance=…, prefix=…)` or `term_query(schema, field, value)`. -/
inductive FieldQuery where
  | fuzzy (field term : String) (distance : Nat) (pre : Bool)
  | term (field value : String)
deriving Repr, DecidableEq

/-- A clause of the top-level boolean query: either a leaf (the agent
filter) or an inner boolean (a per-token OR over the two fields). -/
inductive BQuery where
  | leaf (q : FieldQuery)
  | boolOf (parts : List (Occur × FieldQuery))
deriving Repr, DecidableEq

/-- Python `str.split()` on a character list, with the token read so far
(reversed) as accumulator: maximal non-whitespace runs, in order; empty
tokens cannot occur. -/
def tokenizeAux : List Char → List Char → List String
  | [], acc => if acc = [] then [] else [String.mk acc.reverse]
  | c :: rest, acc =>
      if c.isWhitespace then
        if acc = [] then tokenizeAux rest []
        else String.mk acc.reverse :: tokenizeAux rest []
      else tokenizeAux rest (c :: acc)

/-- `query.split()`. -/
def tokenize (q : String) : List String :=
  tokenizeAux q.data []

/-- The per-token clause built at lines 274–292 of `index.py`: fuzzy
term queries with edit distance 1 and prefix matching against `title`
and `content`, OR-ed via two `Should` occurrences, the whole clause
attached with `Must`. -/
def tokenClause (t : String) : Occur × BQuery :=
  (Occur.must,
   BQuery.boolOf
     [(Occur.should, FieldQuery.fuzzy "title" t 1 true),
      (Occur.should, FieldQuery.fuzzy "content" t 1 true)])

/-- `TantivyIndex._build_fuzzy_query` (lines 256–294):
`if not query.strip(): return []`, then one `Must` clause per token. -/
def buildFuzzyQuery (query : String) : List (Occur × BQuery) :=
  if query.toList.all (fun c => c.isWhitespace) then []
  else
    (tokenize query).foldl
      (fun acc t => if t == "" then acc else acc ++ [tokenClause t]) []

/-- The query-part assembly of `TantivyIndex.search` (lines 227–240):
append an exact `Must` term clause on `agent` when the filter is a
non-empty string (`if agent_filter:`); a final empty part list means the
search returns no hits (`if not query_parts: return []`). -/
def searchQueryParts (query : String) (agentFilter : Option String) :
    Option (List (Occur × BQuery)) :=
  let parts := buildFuzzyQuery query
  let parts :=
    match agentFilter with
    | some a =>
        if a ≠ "" then parts ++ [(Occur.must, BQuery.leaf (.term "agent" a))]
        else parts
    | none => parts
  if parts = [] then none else some parts

/-- The document fields a query can address. -/
structure IndexedDoc where
  title : String
  content : String
  agent : String
deriving Repr, DecidableEq

def fieldValue (d : IndexedDoc) (field : String) : String :=
  if field == "title" then d.title
  else if field == "content" then d.content
  else if field == "agent" then d.agent
  else ""

/-- Evaluation of a leaf query on a document.  `fm fieldText term`
abstracts tantivy's fuzzy matcher (edit distance ≤ 1 with prefix
expansion) — external library behaviour, taken as an oracle. -/
def evalField (fm : String → String → Bool) (d : IndexedDoc) :
    FieldQuery → Bool
  | .fuzzy field term _ _ => fm (fieldValue d field) term
  | .term field v => fieldValue d field == v

/-- Tantivy boolean-clause semantics over leaves: all `Must` clauses
hold, and when there is no `Must` clause at least one `Should` does. -/
def evalParts (ev : FieldQuery → Bool)
    (parts : List (Occur × FieldQuery)) : Bool :=
  let musts := parts.filter (fun p => p.1 == Occur.must)
  let shoulds := parts.filter (fun p => p.1 == Occur.should)
  musts.all (fun p => ev p.2) &&
    (!musts.isEmpty || shoulds.any (fun p => ev p.2))

def evalB (fm : String → String → Bool) (d : IndexedDoc) : BQuery → Bool
  | .leaf q => evalField fm d q
  | .boolOf parts => evalParts (evalField fm d) parts

/-- Semantics of the top-level `boolean_query(query_parts)`. -/
def evalTop (fm : String → String → Bool) (d : IndexedDoc)
    (parts : List (Occur × BQuery)) : Bool :=
  let musts := parts.filter (fun p => p.1 == Occur.must)
  let shoulds := parts.filter (fun p => p.1 == Occur.should)
  musts.all (fun p => evalB fm d p.2) &&
    (!musts.isEmpty || shoulds.any (fun p => evalB fm d p.2))

/-- Whether a document is a hit of `TantivyIndex.search(query,
agent_filter, …)`: no hits at all when the assembled part list is
empty. -/
def searchMatches (fm : String → String → Bool) (query : String)
    (agentFilter : Option String) (d : IndexedDoc) : Bool :=
  match searchQueryParts query agentFilter with
  | none => false
  | some parts => evalTop fm d parts

/-! ## Aggregator search (`search.py`, `SessionSearch`)

This revision of the aggregator does not consult the index at all: it
runs rapidfuzz `process.extract` over in-memory sessions and then
re-ranks with `_compute_hybrid_score`.  The rapidfuzz `WRatio` scorer
and the `re.search` phrase test are external library behaviour and are
abstracted as oracles `fo` and `po`. -/

/-- `SessionSearch._compute_hybrid_score` (lines 194–217): the fuzzy
score plus an exact-substring bonus (25), an all-tokens-present bonus
(15) and, for multi-token queries, a consecutive-phrase bonus (30,
decided by the regex oracle `po tokens searchableLower`). -/
def computeHybridScore (po : List String → String → Bool)
    (query searchable : String) (fuzzyScore : ℚ) : ℚ :=
  let ql := strLower query
  let sl := strLower searchable
  let exactBonus : ℚ := if containsSubstr sl ql then 25 else 0
  let tokens := tokenize ql
  let tokenBonus : ℚ :=
    if tokens.all (fun t => containsSubstr sl t) then 15 else 0
  let phraseBonus : ℚ :=
    if tokens.length > 1 then (if po tokens sl then 30 else 0) else 0
  fuzzyScore + exactBonus + tokenBonus + phraseBonus

/-- The searchable string built at line 246:
`f"{title} {title} {directory} {content[:2000]}"`. -/
def searchableOf (s : Session) : String :=
  s.title ++ " " ++ s.title ++ " " ++ s.directory ++ " " ++ strTake s.content 2000

/-- The agent and directory pre-filters of `SessionSearch.search`
(lines 229–237); both guards use Python string truthiness. -/
def applySearchFilters (sessions : List Session)
    (agentFilter dirFilter : Option String) : List Session :=
  let ss :=
    match agentFilter with
    | some a => if a ≠ "" then sessions.filter (fun s => s.agent == a) else sessions
    | none => sessions
  match dirFilter with
  | some d =>
      if d ≠ "" then
        ss.filter (fun s => containsSubstr (strLower s.directory) (strLower d))
      else ss
  | none => ss

/-- The `scored_results` list of `SessionSearch.search` (lines 249–268):
rapidfuzz `process.extract` keeps the `min(limit*2, len(choices))` best
fuzzy matches (descending, stably), candidates with fuzzy score > 40 are
re-scored with the hybrid score, and the result is resorted descending
by hybrid score (Python's stable `list.sort` with `reverse=True`). -/
def scoredResults (fo : String → String → ℚ)
    (po : List String → String → Bool) (filtered : List Session)
    (query : String) (limit : Nat) : List (Session × ℚ) :=
  let choices := filtered.map (fun s => (s, searchableOf s, fo query (searchableOf s)))
  let ranked := stableSortBy (fun a b => decide (a.2.2 ≥ b.2.2)) choices
  let kept := ranked.take (min (limit * 2) choices.length)
  let rescored := kept.filterMap (fun r =>
    if r.2.2 > 40 then some (r.1, computeHybridScore po query r.2.1 r.2.2)
    else none)
  stableSortBy (fun a b => decide (a.2 ≥ b.2)) rescored

/-- `SessionSearch.search` (lines 219–276): empty query returns the
filtered recency list cut to `limit`; otherwise the hybrid-scored
ranking cut to `limit`, keeping only scores above 50. -/
def searchSessions (fo : String → String → ℚ)
    (po : List String → String → Bool) (sessions : List Session)
    (query : String) (agentFilter dirFilter : Option String)
    (limit : Nat) : List Session :=
  let filtered := applySearchFilters sessions agentFilter dirFilter
  if query == "" then filtered.take limit
  else
    ((scoredResults fo po filtered query limit).take limit).filterMap
      (fun p => if p.2 > 50 then some p.1 else none)

/-! ## Aggregator JSON session cache (`search.py`, lines 72–125)

`_save_to_cache` serialises exactly seven fields per session (`id`,
`agent`, `title`, `directory`, `timestamp` via `isoformat`, `preview`,
`content`); `_load_from_cache` rebuilds `Session` objects from them and
nothing else, so `message_count`, `mtime` and `yolo` take their
dataclass defaults.  `datetime.fromisoformat(t.isoformat())` is an exact
round trip, so the timestamp is carried as a value. -/

/-- One serialised session of the cache file. -/
structure CacheEntry where
  id : String
  agent : String
  title : String
  directory : String
  timestamp : ℚ
  preview : String
  content : String
deriving Repr, DecidableEq

/-- The cache file: the mtime-derived cache key and the session list. -/
structure CacheData where
  key : String
  sessions : List CacheEntry
deriving Repr, DecidableEq

/-- `SessionSearch._save_to_cache` (lines 103–125). -/
def saveToCache (key : String) (sessions : List Session) : CacheData :=
  { key := key
    sessions := sessions.map (fun s =>
      { id := s.id, agent := s.agent, title := s.title,
        directory := s.directory, timestamp := s.timestamp,
        preview := s.preview, content := s.content }) }

/-- `SessionSearch._load_from_cache` (lines 72–101): `none` when the
cache file is absent or its key does not match the current key. -/
def loadFromCache (cache : Option CacheData) (currentKey : String) :
    Option (List Session) :=
  match cache with
  | none => none
  | some c =>
      if c.key ≠ currentKey then none
      else
        some (c.sessions.map (fun e =>
          { id := e.id, agent := e.agent, title := e.title,
            directory := e.directory, timestamp := e.timestamp,
            preview := e.preview, content := e.content }))

/-- `VibeAdapter.find_sessions` (lines 22–33): each glob hit is decoded
(`none` models an `orjson` failure or I/O error, swallowed by the
`except`), parsed, and appended — the `if session:` guard never rejects,
because a `Session` dataclass instance is always truthy. -/
def vibeFindSessions
    (files : List (String × ℚ × Option (VibeMeta × List VibeMsg))) :
    List Session :=
  files.filterMap (fun f =>
    (f.2.2).map (fun d => vibeParseSession f.1 f.2.1 d.1 d.2))

/-- `line.startswith("» ")` with the correct two-character marker, on the
character list (used for universally quantified statements; closed
statements use `String.startsWith` directly). -/
def lineIsHuman (l : String) : Bool :=
  charsStartWith l.toList "» ".toList

/-- `line.startswith("  ")` — an assistant line. -/
def lineIsAssist (l : String) : Bool :=
  charsStartWith l.toList "  ".toList

/-- Does a codex record contribute a human turn?  Exactly the
`event_msg`/`user_message` entries with non-empty message, the ones
`_parse_session` appends to `user_prompts`. -/
def codexIsUserPrompt : CodexEntry → Bool
  | .eventMsg (.userMessage m) => m != ""
  | _ => false

/-- Does a crush message row contribute a line?  Exactly the rows whose
extracted part text is non-empty — regardless of role, so assistant and
tool-bearing rows count. -/
def crushRowEmits (m : CrushRawMessage) : Bool :=
  extractTextFromParts m.parts != ""

/-- Does a copilot record contribute a human turn?  Exactly the
`user.message` entries with non-empty content, the ones
`_parse_session` counts in `human_turn_count`. -/
def copilotIsHumanTurn : CopilotEntry → Bool
  | .userMessage c => c != ""
  | _ => false

/-- Does a claude record contribute a human turn?  Exactly the `user`
records whose body is a string or a list headed by a text part
(`is_human_input`). -/
def claudeIsHumanTurn : ClaudeEntry → Bool
  | .user _ _ content => claudeIsHumanContent content
  | _ => false

/-! ## Supporting lemmas -/

theorem shouldUpsert_iff (known : List KnownEntry) (f : ScanFile) :
    shouldUpsert known f = true ↔
      (lookupKnown known f.id = none ∨
        ∃ e, lookupKnown known f.id = some e ∧ f.mtime > e.mtime + 1/1000) := by
  unfold shouldUpsert
  rcases h : lookupKnown known f.id with _ | e
  · simp [h]
  · simp [h, decide_eq_true_iff]

theorem mem_newOrModified (known : List KnownEntry) (current : List ScanFile)
    (t : Session) :
    t ∈ newOrModified known current ↔
      ∃ f ∈ current, shouldUpsert known f = true ∧
        ∃ s, f.parse = some s ∧ t = { s with mtime := f.mtime } := by
  simp only [newOrModified, List.mem_filterMap]
  constructor
  · rintro ⟨f, hf, h⟩
    refine ⟨f, hf, ?_⟩
    by_cases hu : shouldUpsert known f = true
    · simp only [hu, if_true, Option.map_eq_some'] at h
      obtain ⟨s, hs, ht⟩ := h
      exact ⟨hu, s, hs, ht.symm⟩
    · simp [hu] at h
  · rintro ⟨f, hf, hu, s, hs, ht⟩
    exact ⟨f, hf, by simp [hu, hs, ht]⟩

theorem mem_opencodeNewOrModified (known : List KnownEntry)
    (current : List ScanFile) (t : Session) :
    t ∈ opencodeNewOrModified known current ↔
      ∃ f ∈ current, shouldUpsert known f = true ∧ f.parse = some t := by
  simp only [opencodeNewOrModified, List.mem_filterMap, List.mem_filter]
  constructor
  · rintro ⟨f, ⟨hf, hu⟩, hp⟩
    exact ⟨f, hf, hu, hp⟩
  · rintro ⟨f, hf, hu, hp⟩
    exact ⟨f, ⟨hf, hu⟩, hp⟩

theorem mem_deletedIds (name : String) (known : List KnownEntry)
    (currentIds : List String) (sid : String) :
    sid ∈ deletedIds name known currentIds →
      ∃ e ∈ known, e.id = sid ∧ e.agent = name := by
  intro h
  simp only [deletedIds, List.mem_map, List.mem_filter] at h
  obtain ⟨e, ⟨he, hcond⟩, hid⟩ := h
  simp only [Bool.and_eq_true, beq_iff_eq] at hcond
  exact ⟨e, he, hid, hcond.1⟩

theorem mem_ownIds (name : String) (known : List KnownEntry) (sid : String) :
    sid ∈ ownIds name known → ∃ e ∈ known, e.id = sid ∧ e.agent = name := by
  intro h
  simp only [ownIds, List.mem_map, List.mem_filter] at h
  obtain ⟨e, ⟨he, hcond⟩, hid⟩ := h
  exact ⟨e, he, hid, by simpa using hcond⟩

/-! ## Claims -/

/-- C1.  For every adapter implementing the shared incremental scan
(codex, copilot, vibe — and, in its two-phase variant, opencode) and
every known map, a current source file (an entry of the scanned
`current_files` dict) is parsed and returned as an upsert exactly when
its id is unknown or its scan mtime exceeds the stored mtime by more
than the 1-millisecond tolerance; known files within the tolerance
produce no upsert. -/
theorem claim1_incremental_upsert_iff (name : String)
    (known : List KnownEntry) (files : List ScanFile) (t : Session) :
    (t ∈ (findSessionsIncrementalShared name true files known).1 ↔
      ∃ f ∈ buildCurrent files, ∃ s, f.parse = some s ∧
        (lookupKnown known f.id = none ∨
          ∃ e, lookupKnown known f.id = some e ∧
            f.mtime > e.mtime + 1/1000) ∧
        t = { s with mtime := f.mtime }) ∧
    (t ∈ (opencodeFindSessionsIncremental true true files known).1 ↔
      ∃ f ∈ buildCurrent files,
        f.parse = some t ∧
        (lookupKnown known f.id = none ∨
          ∃ e, lookupKnown known f.id = some e ∧
            f.mtime > e.mtime + 1/1000)) := by
  constructor
  · have h1 : (findSessionsIncrementalShared name true files known).1 =
        newOrModified known (buildCurrent files) := rfl
    rw [h1, mem_newOrModified]
    constructor
    · rintro ⟨f, hf, hu, s, hs, ht⟩
      exact ⟨f, hf, s, hs, (shouldUpsert_iff known f).mp hu, ht⟩
    · rintro ⟨f, hf, s, hs, hcond, ht⟩
      exact ⟨f, hf, (shouldUpsert_iff known f).mpr hcond, s, hs, ht⟩
  · have h2 : (opencodeFindSessionsIncremental true true files known).1 =
        opencodeNewOrModified known (buildCurrent files) := rfl
    rw [h2, mem_opencodeNewOrModified]
    constructor
    · rintro ⟨f, hf, hu, hp⟩
      exact ⟨f, hf, hp, (shouldUpsert_iff known f).mp hu⟩
    · rintro ⟨f, hf, hp, hcond⟩
      exact ⟨f, hf, (shouldUpsert_iff known f).mpr hcond, hp⟩

/-- C2.  For every adapter with an incremental scan, the deleted ids are
drawn only from the known entries whose agent equals the adapter's own
name (cross-agent id collisions never delete across agents), and a
missing root yields exactly the empty upsert set together with every own
id — proved exactly for the shared codex/copilot/vibe scan, for both
early exits of the opencode scan, and for the crush scan. -/
theorem claim2_deletions_own_agent :
    (∀ (name : String) (available : Bool) (files : List ScanFile)
        (known : List KnownEntry) (sid : String),
      sid ∈ (findSessionsIncrementalShared name available files known).2 →
        ∃ e ∈ known, e.id = sid ∧ e.agent = name) ∧
    (∀ (available sessionDirExists : Bool) (files : List ScanFile)
        (known : List KnownEntry) (sid : String),
      sid ∈ (opencodeFindSessionsIncremental available sessionDirExists
              files known).2 →
        ∃ e ∈ known, e.id = sid ∧ e.agent = "opencode") ∧
    (∀ (available projectsFileOk : Bool) (projects : List CrushProject)
        (known : List KnownEntry) (sid : String),
      sid ∈ (crushFindSessionsIncremental available projectsFileOk
              projects known).2 →
        ∃ e ∈ known, e.id = sid ∧ e.agent = "crush") ∧
    (∀ (name : String) (files : List ScanFile) (known : List KnownEntry),
      findSessionsIncrementalShared name false files known =
        ([], (known.filter (fun e => e.agent == name)).map
              (fun e => e.id))) ∧
    (∀ (sessionDirExists : Bool) (files : List ScanFile)
        (known : List KnownEntry),
      opencodeFindSessionsIncremental false sessionDirExists files known =
        ([], (known.filter (fun e => e.agent == "opencode")).map
              (fun e => e.id))) ∧
    (∀ (files : List ScanFile) (known : List KnownEntry),
      opencodeFindSessionsIncremental true false files known =
        ([], (known.filter (fun e => e.agent == "opencode")).map
              (fun e => e.id))) ∧
    (∀ (projectsFileOk : Bool) (projects : List CrushProject)
        (known : List KnownEntry),
      crushFindSessionsIncremental false projectsFileOk projects known =
        ([], (known.filter (fun e => e.agent == "crush")).map
              (fun e => e.id))) := by
  refine ⟨?_, ?_, ?_, ?_, ?_, ?_, ?_⟩
  · intro name available files known sid h
    cases available with
    | false => exact mem_ownIds name known sid h
    | true => exact mem_deletedIds name known _ sid h
  · intro available sessionDirExists files known sid h
    cases available with
    | false => exact mem_ownIds _ known sid h
    | true =>
        cases sessionDirExists with
        | false => exact mem_ownIds _ known sid h
        | true => exact mem_deletedIds _ known _ sid h
  · intro available projectsFileOk projects known sid h
    cases available with
    | false => exact mem_ownIds _ known sid h
    | true =>
        cases projectsFileOk with
        | false => exact mem_ownIds _ known sid h
        | true => exact mem_deletedIds _ known _ sid h
  · intro name files known
    rfl
  · intro sessionDirExists files known
    rfl
  · intro files known
    rfl
  · intro projectsFileOk projects known
    rfl

theorem claim2_deletions_own_agent_witness :
    ∃ e ∈ [KnownEntry.mk "x" 1 "codex", KnownEntry.mk "y" 2 "claude"],
      e.id = "x" ∧ e.agent = "codex" :=
  claim2_deletions_own_agent.1 "codex" true []
    [KnownEntry.mk "x" 1 "codex", KnownEntry.mk "y" 2 "claude"] "x"
    (by decide)

/-- C3.  Contrary to the claim, a failed database query makes the crush
adapter report the project's previously indexed session ids as deleted:
with one known crush session and one project whose `crush.db` query
raises `sqlite3.Error` (`queryOk = false`), `find_sessions_incremental`
returns `deleted_ids = ["s1"]`. -/
theorem claim3_crush_query_failure_deletes_known :
    crushFindSessionsIncremental true true
      [CrushProject.mk "/p" "/data" (some (CrushDB.mk false []))]
      [KnownEntry.mk "s1" 100 "crush"] = ([], ["s1"]) := by
  rfl

/-- C4.  Contrary to the claim, the vibe adapter emits sessions with no
human turn and even with empty content: a decoded descriptor with an
empty `messages` array yields a record with `content = ""` and
`message_count = 0`, and one with a single assistant message yields a
record whose content has no `» ` line. -/
theorem claim4_vibe_emits_empty_session :
    (vibeFindSessions
        [("session_v", 7, some (⟨some "v1", "/w", false, none⟩, []))]).map
        Session.content = [""] ∧
    (vibeFindSessions
        [("session_v", 7, some (⟨some "v1", "/w", false, none⟩, []))]).map
        Session.message_count = [0] ∧
    (vibeParseSession "s2" 7 ⟨some "v2", "/w", false, none⟩
        [⟨"assistant", VibeContent.str "hello"⟩]).content = "  hello" ∧
    (vibeParseSession "s2" 7 ⟨some "v2", "/w", false, none⟩
        [⟨"assistant", VibeContent.str "hello"⟩]).message_count = 1 ∧
    lineIsHuman "  hello" = false := by
  exact ⟨rfl, rfl, rfl, rfl, by decide⟩

theorem codex_foldl_userPrompts (entries : List CodexEntry) :
    ∀ acc : CodexAcc,
      ((entries.foldl codexStep acc).userPrompts).length =
        acc.userPrompts.length + entries.countP codexIsUserPrompt := by
  induction entries with
  | nil => intro acc; simp
  | cons e es ih =>
      intro acc
      rw [List.foldl_cons, ih, List.countP_cons]
      have h : (codexStep acc e).userPrompts.length =
          acc.userPrompts.length + (if codexIsUserPrompt e then 1 else 0) := by
        cases e with
        | sessionMeta id cwd => simp [codexStep, codexIsUserPrompt]
        | turnContext ap sm =>
            by_cases hc : (ap == "never" || sm == "danger-full-access") = true <;>
              simp [codexStep, codexIsUserPrompt, hc]
        | responseItem role content =>
            by_cases hc : (role == "user" || role == "assistant") = true <;>
              simp [codexStep, codexIsUserPrompt, hc]
        | eventMsg ev =>
            cases ev with
            | userMessage m =>
                by_cases hm : m = "" <;> simp [codexStep, codexIsUserPrompt, hm]
            | agentReasoning t =>
                by_cases ht : t = "" <;> simp [codexStep, codexIsUserPrompt, ht]
            | otherEvent => simp [codexStep, codexIsUserPrompt]
        | otherEntry => simp [codexStep, codexIsUserPrompt]
      omega

theorem copilot_foldl_humanTurnCount (entries : List CopilotEntry) :
    ∀ acc : CopilotAcc,
      ((entries.foldl copilotStep acc).humanTurnCount) =
        acc.humanTurnCount + entries.countP copilotIsHumanTurn := by
  induction entries with
  | nil => intro acc; simp
  | cons e es ih =>
      intro acc
      rw [List.foldl_cons, ih, List.countP_cons]
      have h : (copilotStep acc e).humanTurnCount =
          acc.humanTurnCount + (if copilotIsHumanTurn e then 1 else 0) := by
        cases e with
        | sessionStart sid => simp [copilotStep, copilotIsHumanTurn]
        | sessionInfo it msg =>
            have hc : (copilotStep acc (.sessionInfo it msg)).humanTurnCount =
                acc.humanTurnCount := by
              simp only [copilotStep]
              split
              · cases hef : extractFolder msg <;> simp [hef]
              · rfl
            simp [hc, copilotIsHumanTurn]
        | userMessage c =>
            by_cases hc : c = ""
            · simp [copilotStep, copilotIsHumanTurn, hc]
            · simp only [copilotStep, copilotIsHumanTurn]
              rw [if_pos hc]
              have hb : (c != "") = true := by simpa using hc
              simp only [hb, if_true]
              split <;> rfl
        | assistantMessage c =>
            by_cases hc : c = "" <;> simp [copilotStep, copilotIsHumanTurn, hc]
        | otherEntry => simp [copilotStep, copilotIsHumanTurn]
      omega

theorem claudeUserPartStep_foldl_count (ps : List ClaudePart) :
    ∀ a : ClaudeAcc,
      ((ps.foldl claudeUserPartStep a).humanTurnCount) = a.humanTurnCount := by
  induction ps with
  | nil => intro a; rfl
  | cons p ps ih =>
      intro a
      rw [List.foldl_cons, ih]
      cases p <;> rfl

theorem claudeUserContentStep_count (c : ClaudeContent) (a : ClaudeAcc)
    (im : Bool) :
    (claudeUserContentStep a im c).humanTurnCount = a.humanTurnCount := by
  cases c with
  | str s =>
      simp only [claudeUserContentStep]
      split <;> rfl
  | parts ps => exact claudeUserPartStep_foldl_count ps a
  | other => rfl

theorem claude_foldl_humanTurnCount (entries : List ClaudeEntry) :
    ∀ acc : ClaudeAcc,
      ((entries.foldl claudeStep acc).humanTurnCount) =
        acc.humanTurnCount + entries.countP claudeIsHumanTurn := by
  induction entries with
  | nil => intro acc; simp
  | cons e es ih =>
      intro acc
      rw [List.foldl_cons, ih, List.countP_cons]
      have h : (claudeStep acc e).humanTurnCount =
          acc.humanTurnCount + (if claudeIsHumanTurn e then 1 else 0) := by
        cases e with
        | summary s => simp [claudeStep, claudeIsHumanTurn]
        | user im cwd content =>
            have hd : ((if acc.directory == "" then
                { acc with directory := cwd } else acc) :
                ClaudeAcc).humanTurnCount = acc.humanTurnCount := by
              split <;> rfl
            by_cases hh : claudeIsHumanContent content = true
            · simp only [claudeStep, claudeIsHumanTurn, hh, if_true]
              rw [claudeUserContentStep_count, hd]
            · simp only [claudeStep, claudeIsHumanTurn, hh,
                Bool.false_eq_true, if_false]
              rw [claudeUserContentStep_count, hd]
              simp
        | assistant content => simp [claudeStep, claudeIsHumanTurn]
        | otherEntry => simp [claudeStep, claudeIsHumanTurn]
      omega

theorem crush_foldl_messages (rows : List CrushRawMessage) :
    ∀ acc : CrushAcc,
      ((rows.foldl crushMsgStep acc).messages).length =
        acc.messages.length + rows.countP crushRowEmits := by
  induction rows with
  | nil => intro acc; simp
  | cons r rs ih =>
      intro acc
      rw [List.foldl_cons, ih, List.countP_cons]
      have h : (crushMsgStep acc r).messages.length =
          acc.messages.length + (if crushRowEmits r then 1 else 0) := by
        by_cases ht : extractTextFromParts r.parts = ""
        · simp [crushMsgStep, crushRowEmits, ht]
        · have hb : (extractTextFromParts r.parts == "") = false := by
            simpa using ht
          have hr : crushRowEmits r = true := by
            simp [crushRowEmits, ht]
          simp only [crushMsgStep, hb, Bool.false_eq_true, if_false, hr,
            if_true]
          split <;> simp
      omega

theorem sum_map_filter_split {α : Type} (p : α → Bool) (f : α → Nat)
    (l : List α) :
    ((l.filter p).map f).sum + ((l.filter (fun x => !p x)).map f).sum =
      (l.map f).sum := by
  induction l with
  | nil => rfl
  | cons x xs ih =>
      by_cases hx : p x = true <;>
        simp [List.filter_cons, hx] <;> omega

/-- C5, counterexample.  A vibe descriptor with one user and one
assistant message yields `message_count = 2`, though it holds exactly
one human turn. -/
theorem claim5_counterexample_vibe_counts_assistant :
    (vibeParseSession "s" 7 ⟨some "v1", "/w", false, none⟩
        [⟨"user", VibeContent.str "hi"⟩,
         ⟨"assistant", VibeContent.str "yo"⟩]).message_count = 2 ∧
    ([VibeMsg.mk "user" (VibeContent.str "hi"),
      VibeMsg.mk "assistant" (VibeContent.str "yo")].countP
        (fun m => m.role == "user")) = 1 := by
  exact ⟨rfl, by decide⟩

/-- C5, amended.  `message_count` counts human turns only in the codex,
copilot and claude adapters, but in the crush, opencode and vibe
adapters it counts every emitted content line: codex counts the
non-empty `user_message` events, copilot the non-empty `user.message`
records, claude the human-input user records; crush counts every
message row with non-empty extracted text, whatever its role; opencode
counts every pre-indexed text part of every message; vibe counts the
lines of user and non-user messages alike (an assistant message with
non-empty string content contributes a line). -/
theorem claim5_message_count_semantics :
    (∀ (stem : String) (mt : ℚ) (entries : List CodexEntry) (s : Session),
      codexParseSession stem mt entries = some s →
        s.message_count = entries.countP codexIsUserPrompt) ∧
    (∀ (sid : String) (data : CrushSessionData)
        (rows : List CrushRawMessage) (path : String) (s : Session),
      crushBuildSession sid data rows path = some s →
        s.message_count = rows.countP crushRowEmits) ∧
    (∀ (sid : String) (title : Option String) (dir : String)
        (created mt : ℚ) (sessionMsgs : List OcMsg)
        (partsByMessage : List (String × List String)),
      (ocParseSession sid title dir created mt sessionMsgs
          partsByMessage).message_count =
        ((stableSortBy (fun a b => decide (a.fileName ≤ b.fileName))
            sessionMsgs).map
          (fun m => (lookupParts partsByMessage m.msgId).length)).sum) ∧
    (∀ (stem : String) (mt : ℚ) (meta : VibeMeta) (msgs : List VibeMsg),
      (vibeParseSession stem mt meta msgs).message_count =
        (((msgs.filter (fun m => m.role == "user")).map
            vibeMsgLines).flatten).length +
        (((msgs.filter (fun m => !(m.role == "user"))).map
            vibeMsgLines).flatten).length) ∧
    (∀ s : String, s ≠ "" →
      vibeMsgLines ⟨"assistant", VibeContent.str s⟩ = ["  " ++ s]) ∧
    (∀ (stem : String) (mt : ℚ) (entries : List CopilotEntry)
        (s : Session),
      copilotParseSession stem mt entries = some s →
        s.message_count = entries.countP copilotIsHumanTurn) ∧
    (∀ (stem : String) (mt : ℚ) (mcl : Nat) (entries : List ClaudeEntry)
        (s : Session),
      claudeParseSession stem mt mcl entries = some s →
        s.message_count = entries.countP claudeIsHumanTurn) := by
  refine ⟨?_, ?_, ?_, ?_, ?_, ?_, ?_⟩
  · intro stem mt entries s h
    simp only [codexParseSession] at h
    split at h
    · exact absurd h (by simp)
    · rename_i p rest heq
      have hs := Option.some.inj h
      have hf := codex_foldl_userPrompts entries ⟨"", "", false, [], []⟩
      have hmc : s.message_count =
          ((entries.foldl codexStep ⟨"", "", false, [], []⟩).userPrompts).length := by
        rw [← hs]
      rw [hmc, hf]
      simp
  · intro sid data rows path s h
    simp only [crushBuildSession] at h
    by_cases hc : ((decide ((rows.foldl crushMsgStep ⟨[], ""⟩).messages = [])) ||
        ((rows.foldl crushMsgStep ⟨[], ""⟩).firstUserMessage == "")) = true
    · rw [if_pos hc] at h
      exact absurd h (by simp)
    · rw [if_neg hc] at h
      have hs := Option.some.inj h
      have hmc : s.message_count =
          ((rows.foldl crushMsgStep ⟨[], ""⟩).messages).length := by
        rw [← hs]
      rw [hmc, crush_foldl_messages rows ⟨[], ""⟩]
      simp
  · intro sid title dir created mt sessionMsgs partsByMessage
    simp only [ocParseSession, ocGetSessionMessages, List.length_flatten,
      List.map_map]
    refine congrArg List.sum ?_
    refine List.map_congr_left ?_
    intro m _
    simp [Function.comp, List.length_map]
  · intro stem mt meta msgs
    have h : (vibeParseSession stem mt meta msgs).message_count =
        ((msgs.map vibeMsgLines).flatten).length := rfl
    rw [h]
    simp only [List.length_flatten, List.map_map]
    exact (sum_map_filter_split (fun m => m.role == "user")
      (fun m => (vibeMsgLines m).length) msgs).symm
  · intro s hs
    simp [vibeMsgLines, hs]
  · intro stem mt entries s h
    simp only [copilotParseSession] at h
    by_cases h1 : ((entries.foldl copilotStep
        ⟨stem, "", "", [], 0⟩).firstUserMessage == "") = true
    · rw [if_pos h1] at h
      exact absurd h (by simp)
    · rw [if_neg h1] at h
      by_cases h2 : (entries.foldl copilotStep
          ⟨stem, "", "", [], 0⟩).messages = []
      · rw [if_pos h2] at h
        exact absurd h (by simp)
      · rw [if_neg h2] at h
        have hs := Option.some.inj h
        have hmc : s.message_count =
            ((entries.foldl copilotStep
              ⟨stem, "", "", [], 0⟩).humanTurnCount) := by
          rw [← hs]
        rw [hmc, copilot_foldl_humanTurnCount]
        simp
  · intro stem mt mcl entries s h
    simp only [claudeParseSession] at h
    by_cases h1 : ((entries.foldl claudeStep
        ⟨"", "", "", [], 0⟩).firstUserMessage == "") = true
    · rw [if_pos h1] at h
      exact absurd h (by simp)
    · rw [if_neg h1] at h
      by_cases h2 : (entries.foldl claudeStep
          ⟨"", "", "", [], 0⟩).messages = []
      · rw [if_pos h2] at h
        exact absurd h (by simp)
      · rw [if_neg h2] at h
        have hs := Option.some.inj h
        have hmc : s.message_count =
            ((entries.foldl claudeStep
              ⟨"", "", "", [], 0⟩).humanTurnCount) := by
          rw [← hs]
        rw [hmc, claude_foldl_humanTurnCount]
        simp

theorem claim5_message_count_semantics_witness :
    (codexParseSession "r-1" 3
        [CodexEntry.eventMsg (CodexEvent.userMessage "hi there"),
         CodexEntry.eventMsg (CodexEvent.agentReasoning "think")]).map
        Session.message_count = some 1 ∧
    ([CodexEntry.eventMsg (CodexEvent.userMessage "hi there"),
      CodexEntry.eventMsg (CodexEvent.agentReasoning "think")].countP
        codexIsUserPrompt) = 1 ∧
    (crushBuildSession "c1" ⟨"T", 50, 40⟩
        [CrushRawMessage.mk "user"
           (some [CrushPart.textPart "hello me please"]),
         CrushRawMessage.mk "assistant"
           (some [CrushPart.textPart "sure"])] "/proj").map
        Session.message_count = some 2 ∧
    ([CrushRawMessage.mk "user" (some [CrushPart.textPart "hello me please"]),
      CrushRawMessage.mk "assistant" (some [CrushPart.textPart "sure"])].countP
        crushRowEmits) = 2 ∧
    vibeMsgLines ⟨"assistant", VibeContent.str "yo"⟩ = ["  " ++ "yo"] ∧
    (copilotParseSession "f" 0
        [CopilotEntry.userMessage "please fix my login",
         CopilotEntry.assistantMessage "done"]).map
        Session.message_count = some 1 ∧
    ([CopilotEntry.userMessage "please fix my login",
      CopilotEntry.assistantMessage "done"].countP copilotIsHumanTurn) = 1 ∧
    (claudeParseSession "c9" 0 32768
        [ClaudeEntry.user false "/d"
           (ClaudeContent.str "please fix my login"),
         ClaudeEntry.assistant (ClaudeContent.str "done")]).map
        Session.message_count = some 1 ∧
    ([ClaudeEntry.user false "/d" (ClaudeContent.str "please fix my login"),
      ClaudeEntry.assistant (ClaudeContent.str "done")].countP
        claudeIsHumanTurn) = 1 := by
  have h1 := claim5_message_count_semantics.1 "r-1" 3
    [CodexEntry.eventMsg (CodexEvent.userMessage "hi there"),
     CodexEntry.eventMsg (CodexEvent.agentReasoning "think")]
  have h2 := claim5_message_count_semantics.2.1 "c1" ⟨"T", 50, 40⟩
    [CrushRawMessage.mk "user" (some [CrushPart.textPart "hello me please"]),
     CrushRawMessage.mk "assistant" (some [CrushPart.textPart "sure"])] "/proj"
  have h5 := claim5_message_count_semantics.2.2.2.2.1 "yo" (by decide)
  have h6 := claim5_message_count_semantics.2.2.2.2.2.1 "f" 0
    [CopilotEntry.userMessage "please fix my login",
     CopilotEntry.assistantMessage "done"]
  have h7 := claim5_message_count_semantics.2.2.2.2.2.2 "c9" 0 32768
    [ClaudeEntry.user false "/d" (ClaudeContent.str "please fix my login"),
     ClaudeEntry.assistant (ClaudeContent.str "done")]
  refine ⟨?_, by decide, ?_, by decide, h5, ?_, by decide, ?_, by decide⟩
  · rcases hp : codexParseSession "r-1" 3
        [CodexEntry.eventMsg (CodexEvent.userMessage "hi there"),
         CodexEntry.eventMsg (CodexEvent.agentReasoning "think")] with _ | s
    · exact absurd hp (by decide)
    · have := h1 s hp
      simp [hp, this]
      decide
  · rcases hp : crushBuildSession "c1" ⟨"T", 50, 40⟩
        [CrushRawMessage.mk "user" (some [CrushPart.textPart "hello me please"]),
         CrushRawMessage.mk "assistant" (some [CrushPart.textPart "sure"])]
        "/proj" with _ | s
    · exact absurd hp (by decide)
    · have := h2 s hp
      simp [hp, this]
      decide
  · rcases hp : copilotParseSession "f" 0
        [CopilotEntry.userMessage "please fix my login",
         CopilotEntry.assistantMessage "done"] with _ | s
    · exact absurd hp (by decide)
    · have := h6 s hp
      simp [hp, this]
      decide
  · rcases hp : claudeParseSession "c9" 0 32768
        [ClaudeEntry.user false "/d" (ClaudeContent.str "please fix my login"),
         ClaudeEntry.assistant (ClaudeContent.str "done")] with _ | s
    · exact absurd hp (by decide)
    · have := h7 s hp
      simp [hp, this]
      decide

/-- C6.  Contrary to the claim, the copilot, crush and opencode adapters
mark human turns with the three-character mojibake `Â» ` (U+00C2 U+00BB
space) rather than `» `, while codex (and vibe, claude) use the correct
two-character marker. -/
theorem claim6_human_marker_mojibake :
    ((copilotParseSession "f" 0
        [CopilotEntry.userMessage "please fix my login",
         CopilotEntry.assistantMessage "done"]).map Session.content) =
      some "Â» please fix my login\n\n  done" ∧
    lineIsHuman "Â» please fix my login" = false ∧
    charsStartWith "Â» please fix my login".toList "Â» ".toList = true ∧
    ocGetSessionMessages [OcMsg.mk "a.json" "m1" "user"] [("m1", ["hi"])] =
      ["Â» hi"] ∧
    ((crushBuildSession "c1" ⟨"T", 50, 40⟩
        [CrushRawMessage.mk "user"
          (some [CrushPart.textPart "hello me please"])] "/proj").map
        Session.content) = some "Â» hello me please" ∧
    ((codexParseSession "r-1" 3
        [CodexEntry.eventMsg (CodexEvent.userMessage "hi there")]).map
        Session.content) = some "» hi there" ∧
    lineIsHuman "» hi there" = true := by
  exact ⟨rfl, by decide, by decide, rfl, rfl, rfl, by decide⟩

theorem stringMk_ne_empty (l : List Char) (h : l ≠ []) :
    String.mk l ≠ "" := by
  intro hc
  exact h (by simpa using congrArg String.data hc)

theorem tokenizeAux_eq_nil_iff (cs : List Char) :
    ∀ acc : List Char,
      (tokenizeAux cs acc = [] ↔
        (cs.all (fun c => c.isWhitespace) = true ∧ acc = [])) := by
  induction cs with
  | nil =>
      intro acc
      by_cases h : acc = [] <;> simp [tokenizeAux, h]
  | cons c rest ih =>
      intro acc
      by_cases hc : c.isWhitespace = true
      · by_cases h : acc = []
        · simp [tokenizeAux, hc, h, ih]
        · simp [tokenizeAux, hc, h]
      · simp [tokenizeAux, hc, ih]

theorem tokenize_eq_nil_iff (q : String) :
    tokenize q = [] ↔ q.data.all (fun c => c.isWhitespace) = true := by
  unfold tokenize
  rw [tokenizeAux_eq_nil_iff]
  simp

theorem tokenizeAux_ne_empty (cs : List Char) :
    ∀ (acc : List Char) (t : String), t ∈ tokenizeAux cs acc → t ≠ "" := by
  induction cs with
  | nil =>
      intro acc t ht
      by_cases h : acc = []
      · simp [tokenizeAux, h] at ht
      · simp only [tokenizeAux, h, if_false, List.mem_singleton] at ht
        subst ht
        exact stringMk_ne_empty _ (by simpa using h)
  | cons c rest ih =>
      intro acc t ht
      by_cases hc : c.isWhitespace = true
      · by_cases h : acc = []
        · rw [tokenizeAux] at ht
          simp only [hc, if_true, h] at ht
          exact ih [] t ht
        · rw [tokenizeAux] at ht
          simp only [hc, if_true, h, if_false, List.mem_cons] at ht
          rcases ht with rfl | ht
          · exact stringMk_ne_empty _ (by simpa using h)
          · exact ih [] t ht
      · rw [tokenizeAux] at ht
        simp only [hc, Bool.false_eq_true, if_false] at ht
        exact ih (c :: acc) t ht

theorem tokenize_ne_empty (q : String) (t : String) (ht : t ∈ tokenize q) :
    t ≠ "" :=
  tokenizeAux_ne_empty q.data [] t ht

theorem buildFuzzy_foldl_eq_map :
    ∀ (ts : List String) (acc : List (Occur × BQuery)),
      (∀ t ∈ ts, t ≠ "") →
      ts.foldl (fun acc t => if t == "" then acc else acc ++ [tokenClause t])
          acc =
        acc ++ ts.map tokenClause := by
  intro ts
  induction ts with
  | nil => intro acc _; simp
  | cons t ts ih =>
      intro acc h
      have ht : (t == "") = false := by
        simpa using h t (List.mem_cons_self ..)
      rw [List.foldl_cons]
      simp only [ht, Bool.false_eq_true, if_false]
      rw [ih (acc ++ [tokenClause t])
        (fun x hx => h x (List.mem_cons_of_mem _ hx))]
      simp

theorem buildFuzzyQuery_eq_map (q : String) :
    buildFuzzyQuery q = (tokenize q).map tokenClause := by
  unfold buildFuzzyQuery
  by_cases hw : q.toList.all (fun c => c.isWhitespace) = true
  · rw [if_pos hw]
    have : tokenize q = [] := (tokenize_eq_nil_iff q).mpr hw
    simp [this]
  · rw [if_neg hw]
    rw [buildFuzzy_foldl_eq_map (tokenize q) [] (tokenize_ne_empty q)]
    simp

theorem evalTop_tokenClauses (fm : String → String → Bool) (d : IndexedDoc)
    (ts : List String) (hne : ts ≠ []) :
    evalTop fm d (ts.map tokenClause) =
      ts.all (fun t => fm d.title t || fm d.content t) := by
  simp only [evalTop]
  have hm : (ts.map tokenClause).filter (fun p => p.1 == Occur.must) =
      ts.map tokenClause := by
    rw [List.filter_eq_self]
    intro p hp
    rcases List.mem_map.mp hp with ⟨t, _, rfl⟩
    rfl
  have hsh : (ts.map tokenClause).filter (fun p => p.1 == Occur.should) =
      ([] : List (Occur × BQuery)) := by
    rw [List.filter_eq_nil_iff]
    intro p hp
    rcases List.mem_map.mp hp with ⟨t, _, rfl⟩
    simp [tokenClause]
  rw [hm, hsh]
  have hemp : (ts.map tokenClause).isEmpty = false := by
    simp [List.isEmpty_iff, hne]
  rw [hemp]
  simp only [List.any_nil, Bool.not_false, Bool.true_or, Bool.and_true]
  have hall : ∀ (l : List String),
      ((l.map tokenClause).all fun p => evalB fm d p.2) =
        l.all (fun t => fm d.title t || fm d.content t) := by
    intro l
    induction l with
    | nil => rfl
    | cons t l ihl =>
        simp only [List.map_cons, List.all_cons, ihl]
        congr 1
        have he : evalB fm d (tokenClause t).2 =
            (fm d.title t || (fm d.content t || false)) := rfl
        rw [he]
        simp
  exact hall ts

/-- C7.  For every query, `_build_fuzzy_query` produces exactly one
`Must` clause per whitespace token (empty tokens cannot arise), each an
OR of two edit-distance-1 prefix fuzzy term queries against `title` and
`content`; under tantivy boolean semantics a document is a hit of the
assembled query iff every token fuzzy-matches its title or its content
(and a tokenless query matches nothing). -/
theorem claim7_fuzzy_query_construction (q : String)
    (fm : String → String → Bool) (d : IndexedDoc) :
    buildFuzzyQuery q = (tokenize q).map tokenClause ∧
    (searchMatches fm q none d = true ↔
      (tokenize q ≠ [] ∧
        ∀ t ∈ tokenize q, (fm d.title t || fm d.content t) = true)) := by
  refine ⟨buildFuzzyQuery_eq_map q, ?_⟩
  have h1 : searchQueryParts q none =
      (if (tokenize q).map tokenClause = [] then none
       else some ((tokenize q).map tokenClause)) := by
    show (if buildFuzzyQuery q = [] then none
          else some (buildFuzzyQuery q)) = _
    rw [buildFuzzyQuery_eq_map]
  have h2 : searchMatches fm q none d =
      (match searchQueryParts q none with
        | none => false
        | some parts => evalTop fm d parts) := rfl
  rw [h2, h1]
  by_cases hts : tokenize q = []
  · simp [hts]
  · rw [if_neg (by simpa using hts)]
    simp [evalTop_tokenClauses fm d (tokenize q) hts, List.all_eq_true, hts]

/-- C9.  A schema stamp that is missing, unreadable or different from
the compiled-in version makes `_ensure_index` delete the index directory
and recreate it fresh (empty, restamped), and makes the next
`get_known_sessions` return the empty map. -/
theorem claim9_schema_mismatch_rebuilds (d : IndexDir)
    (h : d.stamp ≠ some schemaVersion) :
    ensureIndex (some d) = freshIndexDir ∧
    freshIndexDir = ⟨some schemaVersion, []⟩ ∧
    getKnownSessions (some d) = [] := by
  have hc : checkVersion d = false := by
    simp only [checkVersion, beq_eq_false_iff_ne, ne_eq]
    exact h
  refine ⟨?_, rfl, ?_⟩
  · simp [ensureIndex, hc]
  · simp [getKnownSessions, hc]

theorem claim9_schema_mismatch_rebuilds_witness :
    ensureIndex (some ⟨some 12, [⟨"a", 5, "claude"⟩]⟩) = freshIndexDir ∧
    getKnownSessions (some ⟨some 12, [⟨"a", 5, "claude"⟩]⟩) = [] :=
  ⟨(claim9_schema_mismatch_rebuilds ⟨some 12, [⟨"a", 5, "claude"⟩]⟩
      (by decide)).1,
   (claim9_schema_mismatch_rebuilds ⟨some 12, [⟨"a", 5, "claude"⟩]⟩
      (by decide)).2.2⟩

/-- C10.  Saving sessions to the aggregator's JSON cache and reloading
them through the matching-key cache path preserves id, agent, title,
directory, timestamp, preview and content, but resets `message_count`
to 0 and `mtime` to 0.0 (the dataclass defaults), whatever the saved
records carried. -/
theorem claim10_cache_roundtrip (key : String) (sessions : List Session) :
    loadFromCache (some (saveToCache key sessions)) key =
      some (sessions.map (fun s =>
        { s with message_count := 0, mtime := 0, yolo := false })) := by
  simp [loadFromCache, saveToCache, List.map_map, Function.comp]

theorem mem_insertAfterEq {α : Type} (le : α → α → Bool) (x b : α) :
    ∀ l : List α, b ∈ insertAfterEq le x l ↔ b = x ∨ b ∈ l := by
  intro l
  induction l with
  | nil => simp [insertAfterEq]
  | cons y ys ih =>
      by_cases h : le y x = true <;> simp [insertAfterEq, h, ih]
      all_goals tauto

theorem pairwise_insertAfterEq {α : Type} (key : α → ℚ) (x : α)
    (l : List α) (hl : l.Pairwise (fun a b => key a ≥ key b)) :
    (insertAfterEq (fun a b => decide (key a ≥ key b)) x l).Pairwise
      (fun a b => key a ≥ key b) := by
  induction l with
  | nil => simp [insertAfterEq]
  | cons y ys ih =>
      rcases List.pairwise_cons.mp hl with ⟨hy, hys⟩
      by_cases hle : key y ≥ key x
      · have hd : decide (key y ≥ key x) = true := decide_eq_true hle
        simp only [insertAfterEq, hd, if_true]
        refine List.pairwise_cons.mpr ⟨?_, ih hys⟩
        intro b hb
        rcases (mem_insertAfterEq _ x b ys).mp hb with rfl | hbys
        · exact hle
        · exact hy b hbys
      · have hd : decide (key y ≥ key x) = false := decide_eq_false hle
        simp only [insertAfterEq, hd, Bool.false_eq_true, if_false]
        have hxy : key x ≥ key y := le_of_not_le hle
        refine List.pairwise_cons.mpr ⟨?_, hl⟩
        intro b hb
        rcases List.mem_cons.mp hb with rfl | hbys
        · exact hxy
        · exact le_trans (hy b hbys) hxy

theorem pairwise_stableSortBy {α : Type} (key : α → ℚ) (l : List α) :
    (stableSortBy (fun a b => decide (key a ≥ key b)) l).Pairwise
      (fun a b => key a ≥ key b) := by
  unfold stableSortBy
  suffices h : ∀ acc : List α, acc.Pairwise (fun a b => key a ≥ key b) →
      (l.foldl
        (fun acc x => insertAfterEq (fun a b => decide (key a ≥ key b)) x acc)
        acc).Pairwise (fun a b => key a ≥ key b) by
    exact h [] List.Pairwise.nil
  induction l with
  | nil => intro acc h; simpa using h
  | cons x xs ih =>
      intro acc h
      rw [List.foldl_cons]
      exact ih _ (pairwise_insertAfterEq key x acc h)

/-- C8, counterexample.  The hybrid score the aggregator ranks by is not
the native fuzzy score: for the single-token query `"hello"` against a
searchable string containing it verbatim, a fuzzy score of 60 is
re-scored to 100 (exact-substring +25, all-tokens +15). -/
theorem claim8_counterexample_rescoring :
    computeHybridScore (fun _ _ => false) "hello" "say hello world" 60 =
      100 ∧
    computeHybridScore (fun _ _ => false) "hello" "say hello world" 60 ≠
      60 := by
  have e1 : containsSubstr (strLower "say hello world") (strLower "hello") =
      true := by decide
  have e2 : ((tokenize (strLower "hello")).all fun t =>
      containsSubstr (strLower "say hello world") t) = true := by decide
  have e3 : ¬ ((tokenize (strLower "hello")).length > 1) := by decide
  constructor
  · unfold computeHybridScore
    simp only [e1, e2, e3, if_true, if_false]
    norm_num
  · unfold computeHybridScore
    simp only [e1, e2, e3, if_true, if_false]
    norm_num

/-- C8, amended.  This revision's aggregator search never consults the
index: it re-ranks.  Results are ordered by non-increasing hybrid score
(rapidfuzz fuzzy score plus the +25/+15/+30 bonuses), and every returned
session comes from a scored candidate whose hybrid score exceeds 50. -/
theorem claim8_hybrid_reranking :
    (∀ (fo : String → String → ℚ) (po : List String → String → Bool)
        (filtered : List Session) (query : String) (limit : Nat),
      (scoredResults fo po filtered query limit).Pairwise
        (fun a b => a.2 ≥ b.2)) ∧
    (∀ (fo : String → String → ℚ) (po : List String → String → Bool)
        (sessions : List Session) (query : String)
        (af df : Option String) (limit : Nat) (s : Session),
      query ≠ "" →
      s ∈ searchSessions fo po sessions query af df limit →
        ∃ p ∈ scoredResults fo po (applySearchFilters sessions af df)
            query limit,
          p.1 = s ∧ p.2 > 50) := by
  constructor
  · intro fo po filtered query limit
    unfold scoredResults
    exact pairwise_stableSortBy (fun p : Session × ℚ => p.2) _
  · intro fo po sessions query af df limit s hq hs
    have hqb : (query == "") = false := by simpa using hq
    simp only [searchSessions, hqb, Bool.false_eq_true, if_false] at hs
    rw [List.mem_filterMap] at hs
    obtain ⟨p, hp, hsome⟩ := hs
    by_cases h50 : p.2 > 50
    · refine ⟨p, List.take_subset _ _ hp, ?_, h50⟩
      simp only [h50, if_true, Option.some.injEq] at hsome
      exact hsome
    · simp [h50] at hsome

theorem claim8_hybrid_reranking_witness :
    ("hello" : String) ≠ "" ∧
    ∃ p ∈ scoredResults (fun _ _ => (60 : ℚ)) (fun _ _ => false)
        (applySearchFilters
          [Session.mk "i1" "codex" "hello" "/d" 5 "p" "" 1 0 false]
          none none) "hello" 1,
      p.1 = Session.mk "i1" "codex" "hello" "/d" 5 "p" "" 1 0 false ∧
      p.2 > 50 := by
  refine ⟨by decide, ?_⟩
  refine claim8_hybrid_reranking.2 (fun _ _ => (60 : ℚ)) (fun _ _ => false)
    [Session.mk "i1" "codex" "hello" "/d" 5 "p" "" 1 0 false] "hello"
    none none 1
    (Session.mk "i1" "codex" "hello" "/d" 5 "p" "" 1 0 false)
    (by decide) ?_
  have hsb : computeHybridScore (fun _ _ => false) "hello"
      (searchableOf (Session.mk "i1" "codex" "hello" "/d" 5 "p" "" 1 0 false))
      60 = 100 := by
    have e1 : containsSubstr
        (strLower (searchableOf
          (Session.mk "i1" "codex" "hello" "/d" 5 "p" "" 1 0 false)))
        (strLower "hello") = true := by decide
    have e2 : ((tokenize (strLower "hello")).all fun t =>
        containsSubstr
          (strLower (searchableOf
            (Session.mk "i1" "codex" "hello" "/d" 5 "p" "" 1 0 false))) t) =
        true := by decide
    have e3 : ¬ ((tokenize (strLower "hello")).length > 1) := by decide
    unfold computeHybridScore
    simp only [e1, e2, e3, if_true, if_false]
    norm_num
  have h2 : scoredResults (fun _ _ => (60 : ℚ)) (fun _ _ => false)
      [Session.mk "i1" "codex" "hello" "/d" 5 "p" "" 1 0 false] "hello" 1 =
      [(Session.mk "i1" "codex" "hello" "/d" 5 "p" "" 1 0 false,
        (100 : ℚ))] := by
    unfold scoredResults
    simp only [List.map_cons, List.map_nil]
    rw [show stableSortBy
        (fun a b : Session × String × ℚ => decide (a.2.2 ≥ b.2.2))
        [(Session.mk "i1" "codex" "hello" "/d" 5 "p" "" 1 0 false,
          searchableOf
            (Session.mk "i1" "codex" "hello" "/d" 5 "p" "" 1 0 false),
          (60 : ℚ))] =
        [(Session.mk "i1" "codex" "hello" "/d" 5 "p" "" 1 0 false,
          searchableOf
            (Session.mk "i1" "codex" "hello" "/d" 5 "p" "" 1 0 false),
          (60 : ℚ))] from rfl]
    rw [show min (1 * 2) ([(Session.mk "i1" "codex" "hello" "/d" 5 "p" ""
        1 0 false,
        searchableOf
          (Session.mk "i1" "codex" "hello" "/d" 5 "p" "" 1 0 false),
        (60 : ℚ))].length) = 1 from rfl]
    rw [List.take_succ_cons, List.take_zero, List.filterMap_cons]
    rw [if_pos (by norm_num : (60 : ℚ) > 40)]
    simp only [List.filterMap_nil, hsb]
    rfl
  have h4 : searchSessions (fun _ _ => (60 : ℚ)) (fun _ _ => false)
      [Session.mk "i1" "codex" "hello" "/d" 5 "p" "" 1 0 false] "hello"
      none none 1 =
      [Session.mk "i1" "codex" "hello" "/d" 5 "p" "" 1 0 false] := by
    unfold searchSessions
    rw [show (("hello" : String) == "") = false from rfl]
    simp only [Bool.false_eq_true, if_false]
    rw [show applySearchFilters
        [Session.mk "i1" "codex" "hello" "/d" 5 "p" "" 1 0 false]
        none none =
        [Session.mk "i1" "codex" "hello" "/d" 5 "p" "" 1 0 false] from rfl]
    rw [h2]
    rw [List.take_succ_cons, List.take_zero, List.filterMap_cons]
    rw [if_pos (by norm_num : (100 : ℚ) > 50)]
    simp
  rw [h4]
  simp

end FastResume
